import Mathlib

/-!
A verification development for `2023_scraper.ts`, a single-file weightlifting
results scraper.  The scraper's pure computations (cell text/number extraction,
row parsing, pagination concatenation, sorting and rendering of the output
file) are embedded shallowly below; browser effects are modelled by explicit
data (an abstract per-event world record) and JavaScript in-place array
mutation by a small heap of arrays.  JavaScript numbers are modelled as exact
rationals plus the special values `NaN` and `±Infinity`; every finite value
`parseFloat` can produce is a decimal rational, so decimal arithmetic is exact
in this model (double rounding is abstracted away).
-/

/-- JavaScript numeric values as produced by `parseFloat`: finite values are
modelled as rationals, plus the special values `NaN`, `Infinity` and
`-Infinity`. -/
inductive JSNum where
  | nan : JSNum
  | posInf : JSNum
  | negInf : JSNum
  | num : ℚ → JSNum
deriving DecidableEq

/-- JavaScript truthiness of a number: `NaN`, `0` and `-0` are falsy. -/
def JSNum.isFalsy : JSNum → Bool
  | .nan => true
  | .num q => q == 0
  | _ => false

/-- The expression `x || 0` on a JavaScript number `x`. -/
def JSNum.orZero (x : JSNum) : JSNum := if x.isFalsy then .num 0 else x

/-- JavaScript `String.prototype.trim`: remove whitespace from both ends. -/
def jsTrim (s : String) : String :=
  ⟨((s.data.dropWhile Char.isWhitespace).reverse.dropWhile Char.isWhitespace).reverse⟩

/-- Numeric value of a list of decimal digit characters. -/
def digitsToNat (ds : List Char) : Nat :=
  ds.foldl (fun n c => 10 * n + (c.toNat - 48)) 0

/-- ECMAScript `parseFloat`: skip leading whitespace, read an optional sign,
then the longest prefix that is `Infinity` or a decimal literal
(digits, an optional dot and fraction digits, and an optional exponent);
when no digits at all are found the result is `NaN`. -/
def parseFloat (s : String) : JSNum :=
  let cs := s.data.dropWhile Char.isWhitespace
  let sign : Bool × List Char :=
    match cs with
    | '-' :: rest => (true, rest)
    | '+' :: rest => (false, rest)
    | _ => (false, cs)
  let neg := sign.1
  let body := sign.2
  if body.take 8 = "Infinity".data then
    if neg then .negInf else .posInf
  else
    let p1 := body.span Char.isDigit
    let intDigits := p1.1
    let p2 : List Char × List Char :=
      match p1.2 with
      | '.' :: rest => rest.span Char.isDigit
      | _ => ([], p1.2)
    let fracDigits := p2.1
    if intDigits = [] ∧ fracDigits = [] then .nan
    else
      let exp : Int :=
        match p2.2 with
        | c :: tail =>
          if c = 'e' ∨ c = 'E' then
            let esign : Int × List Char :=
              match tail with
              | '-' :: t => (-1, t)
              | '+' :: t => (1, t)
              | _ => (1, tail)
            let eds := (esign.2.span Char.isDigit).1
            if eds = [] then 0 else esign.1 * (digitsToNat eds : Int)
          else 0
        | [] => 0
      let mag : Nat := digitsToNat (intDigits ++ fracDigits)
      let sciExp : Int := exp - (fracDigits.length : Int)
      let n : Int := if neg then -(mag : Int) else (mag : Int)
      let value : ℚ :=
        if 0 ≤ sciExp then mkRat (n * ((10 ^ sciExp.toNat : Nat) : Int)) 1
        else mkRat n (10 ^ (-sciExp).toNat)
      .num value

/-- `getText` from the row-extraction callback in `scrapeEventResults`:
the trimmed text of a cell, or the empty string when the cell is absent
or its text is empty (JavaScript truthiness of `cell?.textContent`). -/
def getText (cell : Option String) : String :=
  match cell with
  | some t => if t = "" then "" else jsTrim t
  | none => ""

/-- `getNumber` from the row-extraction callback in `scrapeEventResults`:
`parseFloat` of the trimmed cell text (the literal text `0` when the cell is
absent or its text is empty), coerced to `0` by `|| 0` when falsy. -/
def getNumber (cell : Option String) : JSNum :=
  let text : String :=
    match cell with
    | some t => if t = "" then "0" else jsTrim t
    | none => "0"
  (parseFloat text).orZero

/-- The `CompetitionResult` record of the scraper. -/
structure CompetitionResult where
  lifter : String
  bodyWeight : JSNum
  snatch1 : JSNum
  snatch2 : JSNum
  snatch3 : JSNum
  snatch : JSNum
  cj1 : JSNum
  cj2 : JSNum
  cj3 : JSNum
  cj : JSNum
  total : JSNum
deriving DecidableEq

/-- The row-mapping callback inside `page.evaluate` in `scrapeEventResults`:
fixed column-index extraction from the row's list of `td` cell texts
(an out-of-range index is an absent cell). -/
def parseRow (cells : List String) : CompetitionResult :=
  { lifter := getText (cells.get? 3)
    bodyWeight := getNumber (cells.get? 4)
    snatch1 := getNumber (cells.get? 8)
    snatch2 := getNumber (cells.get? 9)
    snatch3 := getNumber (cells.get? 10)
    snatch := getNumber (cells.get? 11)
    cj1 := getNumber (cells.get? 13)
    cj2 := getNumber (cells.get? 14)
    cj3 := getNumber (cells.get? 15)
    cj := getNumber (cells.get? 12)
    total := getNumber (cells.get? 13) }

/-- The pagination loop of `scrapeEventResults`, over the sequence of row
tables the site would show page by page.  While the rows are present, the
current page's rows are parsed and appended; the enabled `Next page` button
exists exactly while further pages remain.  A page on which the 30-second
wait for `table tbody tr` would time out (an empty row table, or clicking
next when no page follows cannot happen) raises, modelled by `none`. -/
def scrapeEventResults : List (List (List String)) → Option (List CompetitionResult)
  | [] => none
  | p :: rest =>
    if p.isEmpty then none
    else
      match rest with
      | [] => some (p.map parseRow)
      | _ :: _ =>
        match scrapeEventResults rest with
        | none => none
        | some more => some (p.map parseRow ++ more)

/-- The `EventData` record of the scraper. -/
structure EventData where
  id : Int
  name : String
  date : String
  results : List CompetitionResult
deriving DecidableEq

/-- The event-name expression of `scrapeWeightliftingData`:
`page.$eval(selector, el => el.textContent?.trim() || '').catch(() => ...)`.
`res` is the outcome of the `$eval` call (`.error` when it rejected, `.ok`
with the element's text when it resolved); the fallback applies only to a
rejection. -/
def eventNameOf (eventId : Int) (res : Except Unit String) : String :=
  match res with
  | .ok t => if jsTrim t = "" then "" else jsTrim t
  | .error _ => "Event " ++ toString eventId

/-- The event-date expression of `scrapeWeightliftingData`; `today` is the
value of `new Date().toISOString().split('T')[0]` at the moment of the call. -/
def eventDateOf (today : String) (res : Except Unit String) : String :=
  match res with
  | .ok t => if jsTrim t = "" then "" else jsTrim t
  | .error _ => today

instance : DecidableEq (Except Unit String) := fun a b =>
  match a, b with
  | .ok x, .ok y =>
    if h : x = y then .isTrue (by rw [h]) else .isFalse (by simp [h])
  | .error x, .error y => .isTrue (by cases x; cases y; rfl)
  | .ok _, .error _ => .isFalse (by simp)
  | .error _, .ok _ => .isFalse (by simp)

/-- What the external site shows for one event id: whether navigation or a
wait before the content check raises, which of the two raced selectors are
present, the outcomes of the name/date `$eval` calls, and the row tables of
the successive result pages. -/
structure EventWorld where
  navThrows : Bool
  hasRow : Bool
  hasError : Bool
  nameRes : Except Unit String
  dateRes : Except Unit String
  pages : List (List (List String))
deriving DecidableEq

/-- Observable actions of one loop iteration: the 2000 ms courtesy delay and
an invocation of `saveData` with a snapshot of the accumulator. -/
inductive CrawlAction where
  | sleep : Nat → CrawlAction
  | save : List EventData → CrawlAction
deriving DecidableEq

/-- The `EventData` record pushed onto `allEvents` for one scraped event. -/
def mkEvent (eventId : Int) (today : String) (nr dr : Except Unit String)
    (results : List CompetitionResult) : EventData :=
  { id := eventId
    name := eventNameOf eventId nr
    date := eventDateOf today dr
    results := results }

/-- One iteration of the `for` loop of `scrapeWeightliftingData` for event id
`eventId`, given the site's behaviour `w` and the current accumulator `acc`:
returns the emitted actions and the new accumulator.  Control flow follows the
source: a navigation/wait exception is caught by the per-event handler (which
sleeps 2000 ms); a missing `hasContent` or missing table re-check hits
`continue` directly; a pagination exception is caught by the same handler;
otherwise non-empty results are appended and saved, and the iteration ends
with the 2000 ms delay. -/
def iterActions (today : String) (eventId : Int) (w : EventWorld) (acc : List EventData) :
    List CrawlAction × List EventData :=
  if w.navThrows then ([.sleep 2000], acc)
  else if !(w.hasRow || w.hasError) then ([], acc)
  else if !w.hasRow then ([], acc)
  else
    match scrapeEventResults w.pages with
    | none => ([.sleep 2000], acc)
    | some results =>
      if results.length > 0 then
        let ev : EventData := mkEvent eventId today w.nameRes w.dateRes results
        ([.save (acc ++ [ev]), .sleep 2000], acc ++ [ev])
      else ([.sleep 2000], acc)

/-- The crawl loop over a list of event ids, threading the accumulator and
concatenating the actions of every iteration. -/
def crawlGo (world : Int → EventWorld) (today : String) :
    List Int → List EventData → List CrawlAction × List EventData
  | [], acc => ([], acc)
  | eventId :: rest, acc =>
    let step := iterActions today eventId (world eventId) acc
    let tail := crawlGo world today rest step.2
    (step.1 ++ tail.1, tail.2)

/-- The id range of the crawl: `START_ID = 6178` down to `END_ID = 5652`. -/
def eventIds : List Int := (List.range 527).map (fun k => (6178 : Int) - k)

/-- `scrapeWeightliftingData`, from the empty accumulator over the full id
range. -/
def scrapeWeightliftingData (world : Int → EventWorld) (today : String) :
    List CrawlAction × List EventData :=
  crawlGo world today eventIds []

/-- The snapshots passed to `saveData`, in order, within a list of actions. -/
def savesIn (acts : List CrawlAction) : List (List EventData) :=
  acts.filterMap fun a =>
    match a with
    | .save s => some s
    | _ => none

/-- Decimal digits of `n`, least significant first, with explicit fuel. -/
def natDigitsRev : Nat → Nat → List Char
  | 0, _ => []
  | fuel + 1, n =>
    if n < 10 then [Char.ofNat (48 + n)]
    else Char.ofNat (48 + n % 10) :: natDigitsRev fuel (n / 10)

/-- Decimal rendering of a natural number. -/
def natToString (n : Nat) : String := ⟨(natDigitsRev (n + 1) n).reverse⟩

/-- Decimal rendering of `m` padded with leading zeros to `k` digits. -/
def padZeros (k m : Nat) : String :=
  ⟨List.replicate (k - (natDigitsRev (m + 1) m).length) '0' ++
    (natDigitsRev (m + 1) m).reverse⟩

/-- JavaScript rendering of a finite number inside a template literal, for the
decimal rationals this model produces: the shortest decimal expansion, with no
trailing zeros and no sign on zero.  (Rationals without a finite decimal
expansion never arise from `parseFloat`; they get a fraction rendering here.) -/
def ratRender (q : ℚ) : String :=
  let sign : String := if q.num < 0 then "-" else ""
  let a := q.num.natAbs
  match (List.range (q.den + 1)).find? (fun k => 10 ^ k % q.den = 0) with
  | some k =>
    let scaled := a * 10 ^ k / q.den
    if k = 0 then sign ++ natToString scaled
    else sign ++ natToString (scaled / 10 ^ k) ++ "." ++ padZeros k (scaled % 10 ^ k)
  | none => sign ++ natToString a ++ "/" ++ natToString q.den

/-- JavaScript `${x}` rendering of a number. -/
def JSNum.render : JSNum → String
  | .nan => "NaN"
  | .posInf => "Infinity"
  | .negInf => "-Infinity"
  | .num q => ratRender q

/-- The template literal for one result entry in `saveData`. -/
def renderResult (r : CompetitionResult) : String :=
  "  \x7b lifter: \"" ++ r.lifter ++ "\", bodyWeight: " ++ r.bodyWeight.render ++ ", " ++
    "snatch1: " ++ r.snatch1.render ++ ", snatch2: " ++ r.snatch2.render ++
    ", snatch3: " ++ r.snatch3.render ++ ", snatch: " ++ r.snatch.render ++ ", " ++
    "cj1: " ++ r.cj1.render ++ ", cj2: " ++ r.cj2.render ++
    ", cj3: " ++ r.cj3.render ++ ", cj: " ++ r.cj.render ++
    ", total: " ++ r.total.render ++ " \x7d"

/-- The `tsContent` template of `saveData`: header comment with the
regeneration timestamp, the `LiftResult` interface, and the array literal of
all rendered entries joined by `,\n`. -/
def renderFile (timestamp : String) (sorted : List CompetitionResult) : String :=
  "// Generated by weightlifting scraper\n// Last updated: " ++ timestamp ++
    "\n\nexport interface LiftResult \x7b\n    lifter: string;\n    bodyWeight: number;\n" ++
    "    snatch1: number;\n    snatch2: number;\n    snatch3: number;\n    snatch: number;\n" ++
    "    cj1: number;\n    cj2: number;\n    cj3: number;\n    cj: number;\n    total: number;\n\x7d\n\n" ++
    "export const liftingResults: LiftResult[] = [\n" ++
    String.intercalate ",\n" (sorted.map renderResult) ++ "\n];\n"

/-- `data.flatMap(event => event.results)` in `saveData`. -/
def flattenResults (data : List EventData) : List CompetitionResult :=
  (data.map (fun e => e.results)).flatten

/-- The sorted result list of `saveData`:
`.sort((a, b) => a.lifter.localeCompare(b.lifter))` applied to the flattened
results.  `cmp` is the `localeCompare` comparator; ECMAScript `Array.sort` is
stable and comparison-based, modelled by a stable merge sort. -/
def saveDataSorted (cmp : String → String → Int) (data : List EventData) :
    List CompetitionResult :=
  (flattenResults data).mergeSort (fun a b => cmp a.lifter b.lifter ≤ 0)

/-- The output file content written by `saveData`. -/
def saveData (cmp : String → String → Int) (timestamp : String)
    (data : List EventData) : String :=
  renderFile timestamp (saveDataSorted cmp data)

/-- A heap of JavaScript arrays of results, indexed by allocation order; used
to state that `saveData` never mutates its input arrays. -/
structure ArrayHeap where
  arrays : List (List CompetitionResult)

/-- Dereference an array. -/
def ArrayHeap.read (h : ArrayHeap) (r : Nat) : List CompetitionResult :=
  (h.arrays.get? r).getD []

/-- Allocate a fresh array holding `v`. -/
def ArrayHeap.alloc (h : ArrayHeap) (v : List CompetitionResult) : ArrayHeap × Nat :=
  (⟨h.arrays ++ [v]⟩, h.arrays.length)

/-- Overwrite the array at `r` in place. -/
def ArrayHeap.write (h : ArrayHeap) (r : Nat) (v : List CompetitionResult) : ArrayHeap :=
  ⟨h.arrays.set r v⟩

/-- `saveData` at the level of array mutation: `eventRefs` are the references
to the `results` arrays of the accumulated events.  `flatMap` reads them and
allocates a fresh array; `.sort` mutates that fresh array in place; the file
content is rendered from it. -/
def saveDataHeap (cmp : String → String → Int) (timestamp : String)
    (h : ArrayHeap) (eventRefs : List Nat) : ArrayHeap × String :=
  let flat := (eventRefs.map h.read).flatten
  let alloc1 := h.alloc flat
  let h2 := alloc1.1.write alloc1.2
    ((alloc1.1.read alloc1.2).mergeSort (fun a b => cmp a.lifter b.lifter ≤ 0))
  (h2, renderFile timestamp (h2.read alloc1.2))

/-- The text between the first double quote of a rendered entry and the next
one: the lifter field as any reader of the generated file would parse it. -/
def quotedPart (s : String) : String :=
  ⟨((s.data.dropWhile (fun c => c ≠ '"')).drop 1).takeWhile (fun c => c ≠ '"')⟩

/-- Everything of a rendered entry after the interpolated lifter string. -/
def renderAfterLifter (r : CompetitionResult) : String :=
  "\", bodyWeight: " ++ r.bodyWeight.render ++ ", " ++
    "snatch1: " ++ r.snatch1.render ++ ", snatch2: " ++ r.snatch2.render ++
    ", snatch3: " ++ r.snatch3.render ++ ", snatch: " ++ r.snatch.render ++ ", " ++
    "cj1: " ++ r.cj1.render ++ ", cj2: " ++ r.cj2.render ++
    ", cj3: " ++ r.cj3.render ++ ", cj: " ++ r.cj.render ++
    ", total: " ++ r.total.render ++ " \x7d"

/-- An exception raised inside the per-event `try` after reaching the results
table: either navigation/waiting threw, or the pagination wait timed out. -/
def raisesPerEvent (w : EventWorld) : Prop :=
  w.navThrows = true ∨
    (w.navThrows = false ∧ w.hasRow = true ∧ scrapeEventResults w.pages = none)

/-- A concrete comparator with the interface of `localeCompare`, built from the
lexicographic order on strings. -/
def strCmpInt (a b : String) : Int :=
  if a < b then -1 else if b < a then 1 else 0

/-- A concrete table row whose cell 13 reads `250`. -/
def row250 : List String :=
  ["", "", "", "Smith, J.", "", "", "", "", "", "", "", "", "", "250"]

/-- A world where neither the table row nor the error marker appears. -/
def noContentWorld : EventWorld :=
  { navThrows := false, hasRow := false, hasError := false,
    nameRes := .error (), dateRes := .error (), pages := [] }

/-- A world where navigation throws. -/
def navThrowsWorld : EventWorld :=
  { navThrows := true, hasRow := false, hasError := false,
    nameRes := .error (), dateRes := .error (), pages := [] }

/-- A world with one result page containing one row. -/
def okWorld : EventWorld :=
  { navThrows := false, hasRow := true, hasError := false,
    nameRes := .ok "Demo Event", dateRes := .ok "2023-06-01",
    pages := [[row250]] }

/-- A site where only event 6178 has results. -/
def demoWorld : Int → EventWorld :=
  fun i => if i = 6178 then okWorld else navThrowsWorld

/-- The event `demoWorld` produces for id 6178. -/
def demoEvent : EventData :=
  { id := 6178, name := "Demo Event", date := "2023-06-01",
    results := [parseRow row250] }

/-- A one-array heap. -/
def demoHeap : ArrayHeap := ⟨[[parseRow row250]]⟩

/-- A ten-row page of blank rows. -/
def page10 : List (List String) := List.replicate 10 ([] : List String)

/-- A four-row page of blank rows. -/
def page4 : List (List String) := List.replicate 4 ([] : List String)

/-- A result record with empty lifter and all-zero numbers. -/
def resultZero : CompetitionResult :=
  { lifter := "", bodyWeight := .num 0, snatch1 := .num 0, snatch2 := .num 0,
    snatch3 := .num 0, snatch := .num 0, cj1 := .num 0, cj2 := .num 0,
    cj3 := .num 0, cj := .num 0, total := .num 0 }

/-- `resultZero` with lifter `a`. -/
def resultA : CompetitionResult := { resultZero with lifter := "a" }

/-- `resultZero` whose lifter contains a double quote: `a"b`. -/
def resultAQ : CompetitionResult := { resultZero with lifter := "a\"b" }

/-- C1: in every extracted row, `total` and `cj1` are both read from cell
index 13 and hence always coincide, `cj` is read from cell 12 and `cj2`, `cj3`
from cells 14 and 15; in particular a row whose cell 13 reads `250` yields
`cj1 = 250` and `total = 250`. -/
theorem total_reads_cell13_as_cj1 (cells : List String) :
    (parseRow cells).total = (parseRow cells).cj1 ∧
    (parseRow cells).cj1 = getNumber (cells.get? 13) ∧
    (parseRow cells).cj = getNumber (cells.get? 12) ∧
    (parseRow cells).cj2 = getNumber (cells.get? 14) ∧
    (parseRow cells).cj3 = getNumber (cells.get? 15) ∧
    (parseRow row250).cj1 = JSNum.num 250 ∧
    (parseRow row250).total = JSNum.num 250 :=
  ⟨rfl, rfl, rfl, rfl, rfl, by decide, by decide⟩

/-- C5: numeric extraction parses the trimmed cell text with `parseFloat` and
yields exactly `0` whenever the text is non-numeric (`parseFloat` gives `NaN`),
empty, or the cell is absent; text extraction of an absent cell yields the
empty string. -/
theorem getNumber_nonnumeric_yields_zero (s : String) :
    getText none = "" ∧
    getNumber none = JSNum.num 0 ∧
    getNumber (some "") = JSNum.num 0 ∧
    getNumber (some "DNF") = JSNum.num 0 ∧
    (parseFloat (jsTrim s) = JSNum.nan → getNumber (some s) = JSNum.num 0) ∧
    (s ≠ "" → getNumber (some s) = (parseFloat (jsTrim s)).orZero) := by
  refine ⟨rfl, by decide, by decide, by decide, ?_, ?_⟩
  · intro h
    by_cases hs : s = ""
    · subst hs; decide
    · simp [getNumber, hs, h, JSNum.orZero, JSNum.isFalsy]
  · intro hs
    simp [getNumber, hs]

/-- Witness for C5 at the concrete non-numeric cell text `DNF`. -/
theorem getNumber_nonnumeric_yields_zero_witness :
    parseFloat (jsTrim "DNF") = JSNum.nan ∧ getNumber (some "DNF") = JSNum.num 0 :=
  ⟨by decide, (getNumber_nonnumeric_yields_zero "DNF").2.2.2.2.1 (by decide)⟩

/-- C6 counterexample: when the name/date extraction succeeds with empty text,
the synthesized defaults are NOT used — the event name and date are the empty
string, contradicting the claimed fallback on empty text. -/
theorem eventName_empty_text_no_fallback :
    eventNameOf 6178 (Except.ok "") = "" ∧
    eventNameOf 6178 (Except.ok "") ≠ "Event 6178" ∧
    eventDateOf "2024-05-01" (Except.ok "") = "" ∧
    eventDateOf "2024-05-01" (Except.ok "") ≠ "2024-05-01" := by
  refine ⟨rfl, ?_, rfl, ?_⟩ <;> decide

/-- C6 amended: the synthesized defaults (`Event {id}`, the current date) are
used exactly when extraction throws; when extraction succeeds the trimmed
text is used as is, even when it is empty. -/
theorem eventName_fallback_only_on_throw (eventId : Int) (today s : String) :
    eventNameOf eventId (Except.error ()) = "Event " ++ toString eventId ∧
    eventDateOf today (Except.error ()) = today ∧
    eventNameOf eventId (Except.ok s) = jsTrim s ∧
    eventDateOf today (Except.ok s) = jsTrim s := by
    refine ⟨rfl, rfl, ?_, ?_⟩ <;>
      · simp only [eventNameOf, eventDateOf]
        by_cases h : jsTrim s = "" <;> simp [h]

/-- C7 counterexample: an iteration skipped because neither the table row nor
the error marker appeared emits no actions at all — in particular no 2000 ms
delay — before the loop moves to the next id. -/
theorem skip_paths_have_no_delay :
    (iterActions "2024-01-01" 6178 noContentWorld []).1 = [] ∧
    CrawlAction.sleep 2000 ∉ (iterActions "2024-01-01" 6178 noContentWorld []).1 := by
  refine ⟨rfl, ?_⟩; decide

/-- C7 amended: the 2-second delay happens exactly when navigation threw or
the results-row selector was present (success, empty results, or an exception
caught per event); the `continue` skips for missing content and for a missing
results table bypass the delay. -/
theorem delay_iff_nav_throws_or_row_present (today : String) (eventId : Int)
    (w : EventWorld) (acc : List EventData) :
    CrawlAction.sleep 2000 ∈ (iterActions today eventId w acc).1 ↔
      (w.navThrows = true ∨ w.hasRow = true) := by
  obtain ⟨nav, row, err, nr, dr, pg⟩ := w
  cases nav
  · cases row
    · cases err <;> simp [iterActions]
    · cases hsc : scrapeEventResults pg with
      | none => simp [iterActions, hsc]
      | some results =>
        by_cases hlen : results.length > 0 <;> simp [iterActions, hsc, hlen]
  · simp [iterActions]

/-- C10: the writer interpolates the lifter string verbatim with no escaping;
consequently reading the quoted lifter field back from a rendered entry does
not recover a lifter name containing a double quote, and two distinct lifter
names can render entries with identical quoted lifter fields. -/
theorem render_lifter_verbatim_not_injective :
    (∀ r : CompetitionResult,
      renderResult r = "  \x7b lifter: \"" ++ r.lifter ++ renderAfterLifter r) ∧
    (∃ r : CompetitionResult, quotedPart (renderResult r) ≠ r.lifter) ∧
    (∃ r1 r2 : CompetitionResult, r1.lifter ≠ r2.lifter ∧
      quotedPart (renderResult r1) = quotedPart (renderResult r2)) := by
  refine ⟨?_, ⟨resultAQ, by decide⟩, ⟨resultA, resultAQ, by decide, by decide⟩⟩
  intro r
  simp [renderResult, renderAfterLifter, String.append_assoc]

/-- On a nonempty sequence of nonempty pages, the paginator returns the
concatenation of the parsed rows of every page, in page order. -/
theorem scrapeEventResults_flatten (pages : List (List (List String)))
    (hne : pages ≠ []) (hp : ∀ p ∈ pages, p ≠ []) :
    scrapeEventResults pages =
      some ((pages.map (fun p => p.map parseRow)).flatten) := by
  induction pages with
  | nil => exact absurd rfl hne
  | cons p rest ih =>
    have hpne : p ≠ [] := hp p (List.mem_cons_self _ _)
    cases rest with
    | nil => simp [scrapeEventResults, List.isEmpty_iff, hpne]
    | cons q rest2 =>
      have hrec := ih (by simp) (fun x hx => hp x (List.mem_cons_of_mem _ hx))
      have hpe : p.isEmpty = false := by simpa using hpne
      rw [scrapeEventResults, hrec]
      simp [hpe]

/-- C4: the paginator advances exactly while an enabled next-page control
exists (modelled by further pages remaining) and returns the concatenation of
all visited pages' parsed rows in page order; its result length is the total
row count, and a 3-page event with 10, 10 and 4 rows yields exactly 24
results. -/
theorem paginator_concats_all_pages (pages : List (List (List String)))
    (hne : pages ≠ []) (hp : ∀ p ∈ pages, p ≠ []) :
    scrapeEventResults pages =
      some ((pages.map (fun p => p.map parseRow)).flatten) ∧
    (∀ rs, scrapeEventResults pages = some rs →
      rs.length = (pages.map List.length).sum) ∧
    (∀ p1 p2 p3 : List (List String),
      p1.length = 10 → p2.length = 10 → p3.length = 4 →
      ∃ rs, scrapeEventResults [p1, p2, p3] = some rs ∧ rs.length = 24) := by
  refine ⟨scrapeEventResults_flatten pages hne hp, ?_, ?_⟩
  · intro rs hrs
    rw [scrapeEventResults_flatten pages hne hp] at hrs
    cases hrs
    simp [Function.comp_def, List.length_map]
  · intro p1 p2 p3 h1 h2 h3
    have hne3 : ([p1, p2, p3] : List (List (List String))) ≠ [] := by simp
    have hp3 : ∀ p ∈ [p1, p2, p3], p ≠ [] := by
      intro p hp'
      simp only [List.mem_cons, List.not_mem_nil, or_false] at hp'
      rcases hp' with rfl | rfl | rfl
      · exact List.ne_nil_of_length_pos (by omega)
      · exact List.ne_nil_of_length_pos (by omega)
      · exact List.ne_nil_of_length_pos (by omega)
    refine ⟨_, scrapeEventResults_flatten _ hne3 hp3, ?_⟩
    simp [h1, h2, h3, List.length_map, List.sum_cons, List.sum_nil]

/-- Witness for C4 on a concrete 3-page event with 10, 10 and 4 rows. -/
theorem paginator_concats_all_pages_witness :
    ∃ rs, scrapeEventResults [page10, page10, page4] = some rs ∧
      rs.length = 24 :=
  (paginator_concats_all_pages [page10, page10, page4] (by decide)
      (by decide)).2.2 page10 page10 page4 (by decide) (by decide) (by decide)

/-- `strCmpInt a b ≤ 0` is the lexicographic `a ≤ b`. -/
theorem strCmpInt_le (a b : String) : strCmpInt a b ≤ 0 ↔ a ≤ b := by
  unfold strCmpInt
  split_ifs with h1 h2
  · exact iff_of_true (by omega) h1.le
  · exact iff_of_false (by omega) (not_le.mpr h2)
  · have hab : a = b := le_antisymm (not_lt.mp h2) (not_lt.mp h1)
    exact iff_of_true (by omega) hab.le

/-- `strCmpInt` is transitive in the comparator sense. -/
theorem strCmpInt_trans (a b c : String) :
    strCmpInt a b ≤ 0 → strCmpInt b c ≤ 0 → strCmpInt a c ≤ 0 := by
  rw [strCmpInt_le, strCmpInt_le, strCmpInt_le]
  exact le_trans

/-- `strCmpInt` is total in the comparator sense. -/
theorem strCmpInt_total (a b : String) :
    strCmpInt a b ≤ 0 ∨ strCmpInt b a ≤ 0 := by
  rw [strCmpInt_le, strCmpInt_le]
  exact le_total a b

/-- C2: for every comparator and accumulated event list, the list rendered
into the output file is a permutation of the flattening of all events'
results, and — for any comparator that is transitive and total, as a locale
comparison is — it is sorted ascending by lifter name under that comparator,
regardless of the order in which events or rows were scraped. -/
theorem saveData_sorted_by_lifter (cmp : String → String → Int)
    (data : List EventData) :
    (saveDataSorted cmp data).Perm (flattenResults data) ∧
    ((∀ a b c : String, cmp a b ≤ 0 → cmp b c ≤ 0 → cmp a c ≤ 0) →
      (∀ a b : String, cmp a b ≤ 0 ∨ cmp b a ≤ 0) →
      (saveDataSorted cmp data).Pairwise
        (fun a b => cmp a.lifter b.lifter ≤ 0)) ∧
    (∀ timestamp, saveData cmp timestamp data =
      renderFile timestamp (saveDataSorted cmp data)) := by
  refine ⟨List.mergeSort_perm _ _, ?_, fun _ => rfl⟩
  intro htrans htotal
  have hs := @List.sorted_mergeSort CompetitionResult
    (fun a b : CompetitionResult => decide (cmp a.lifter b.lifter ≤ 0))
    (fun a b c h1 h2 => decide_eq_true
      (htrans _ _ _ (of_decide_eq_true h1) (of_decide_eq_true h2)))
    (fun a b => by
      rcases htotal a.lifter b.lifter with h | h <;> simp [h])
    (flattenResults data)
  exact hs.imp fun h => of_decide_eq_true h

/-- Witness for C2 with the lexicographic comparator on two concrete events. -/
theorem saveData_sorted_by_lifter_witness :
    (saveDataSorted strCmpInt [demoEvent]).Perm (flattenResults [demoEvent]) ∧
    (saveDataSorted strCmpInt [demoEvent]).Pairwise
      (fun a b => strCmpInt a.lifter b.lifter ≤ 0) :=
  ⟨(saveData_sorted_by_lifter strCmpInt [demoEvent]).1,
    (saveData_sorted_by_lifter strCmpInt [demoEvent]).2.1
      strCmpInt_trans strCmpInt_total⟩

/-- C8: an exception raised while processing a single event id (navigation or
waiting, or pagination inside an event whose table was found) is absorbed at
the per-event scope: the accumulator is left exactly as it was, and the crawl
continues with the remaining ids after the courtesy delay. -/
theorem per_event_exception_skips_event (world : Int → EventWorld)
    (today : String) (eventId : Int) (rest : List Int) (acc : List EventData)
    (h : raisesPerEvent (world eventId)) :
    (iterActions today eventId (world eventId) acc).2 = acc ∧
    crawlGo world today (eventId :: rest) acc =
      (CrawlAction.sleep 2000 :: (crawlGo world today rest acc).1,
        (crawlGo world today rest acc).2) := by
  have hstep : iterActions today eventId (world eventId) acc =
      ([CrawlAction.sleep 2000], acc) := by
    rcases h with h1 | ⟨h1, h2, h3⟩
    · simp [iterActions, h1]
    · simp [iterActions, h1, h2, h3]
  exact ⟨by rw [hstep], by simp [crawlGo, hstep]⟩

/-- Witness for C8: a crawl over one id whose navigation throws. -/
theorem per_event_exception_skips_event_witness :
    raisesPerEvent ((fun _ : Int => navThrowsWorld) 6178) ∧
    (iterActions "2024-01-01" 6178 ((fun _ : Int => navThrowsWorld) 6178) []).2 =
      ([] : List EventData) :=
  ⟨Or.inl rfl,
    (per_event_exception_skips_event (fun _ => navThrowsWorld) "2024-01-01"
      6178 [] [] (Or.inl rfl)).1⟩

/-- `savesIn` distributes over concatenation of action lists. -/
theorem savesIn_append (as bs : List CrawlAction) :
    savesIn (as ++ bs) = savesIn as ++ savesIn bs := by
  simp [savesIn]

/-- One loop iteration preserves the invariant that every accumulated event
has non-empty results, and every `saveData` snapshot it emits satisfies it
as well. -/
theorem iterActions_inv (today : String) (eventId : Int) (w : EventWorld)
    (acc : List EventData) (hacc : ∀ e ∈ acc, e.results ≠ []) :
    (∀ e ∈ (iterActions today eventId w acc).2, e.results ≠ []) ∧
    (∀ s ∈ savesIn (iterActions today eventId w acc).1,
      ∀ e ∈ s, e.results ≠ []) := by
  obtain ⟨nav, row, err, nr, dr, pg⟩ := w
  cases nav
  · cases row
    · cases err <;>
        exact ⟨by simpa [iterActions] using hacc, by simp [iterActions, savesIn]⟩
    · cases hsc : scrapeEventResults pg with
      | none =>
        exact ⟨by simpa [iterActions, hsc] using hacc,
          by simp [iterActions, hsc, savesIn]⟩
      | some results =>
        by_cases hlen : results.length > 0
        · have hres : results ≠ [] := List.ne_nil_of_length_pos hlen
          have hext : ∀ e ∈ acc ++ [mkEvent eventId today nr dr results],
              e.results ≠ [] := by
            intro e he
            rcases List.mem_append.mp he with h | h
            · exact hacc e h
            · rcases List.mem_singleton.mp h with rfl
              exact hres
          have hiter : iterActions today eventId
              ⟨false, true, err, nr, dr, pg⟩ acc =
              ([CrawlAction.save (acc ++ [mkEvent eventId today nr dr results]),
                  CrawlAction.sleep 2000],
                acc ++ [mkEvent eventId today nr dr results]) := by
            simp [iterActions, hsc, hlen]
          rw [hiter]
          refine ⟨hext, ?_⟩
          intro s hs
          simp only [savesIn, List.filterMap_cons, List.filterMap_nil] at hs
          rcases List.mem_singleton.mp hs with rfl
          exact hext
        · exact ⟨by simpa [iterActions, hsc, hlen] using hacc,
            by simp [iterActions, hsc, hlen, savesIn]⟩
  · exact ⟨by simpa [iterActions] using hacc, by simp [iterActions, savesIn]⟩

/-- The crawl loop preserves the non-empty-results invariant for the
accumulator and for every snapshot passed to the writer. -/
theorem crawlGo_inv (world : Int → EventWorld) (today : String)
    (ids : List Int) :
    ∀ acc, (∀ e ∈ acc, e.results ≠ []) →
    (∀ e ∈ (crawlGo world today ids acc).2, e.results ≠ []) ∧
    (∀ s ∈ savesIn (crawlGo world today ids acc).1, ∀ e ∈ s, e.results ≠ []) := by
  induction ids with
  | nil =>
    intro acc hacc
    exact ⟨by simpa [crawlGo] using hacc, by simp [crawlGo, savesIn]⟩
  | cons eventId rest ih =>
    intro acc hacc
    have hstep := iterActions_inv today eventId (world eventId) acc hacc
    have htail := ih _ hstep.1
    constructor
    · simpa [crawlGo] using htail.1
    · intro s hs
      simp only [crawlGo] at hs
      rw [savesIn_append] at hs
      rcases List.mem_append.mp hs with h | h
      · exact hstep.2 s h
      · exact htail.2 s h

/-- C3: every event in the accumulator has a non-empty results list at all
times, and every snapshot handed to the persistence writer contains only
events with non-empty results — an event whose extracted results list is
empty is neither appended nor written. -/
theorem accumulator_results_nonempty (world : Int → EventWorld)
    (today : String) (ids : List Int) :
    (∀ e ∈ (crawlGo world today ids []).2, e.results ≠ []) ∧
    (∀ s ∈ savesIn (crawlGo world today ids []).1, ∀ e ∈ s, e.results ≠ []) ∧
    scrapeWeightliftingData world today = crawlGo world today eventIds [] := by
  have h := crawlGo_inv world today ids [] (by simp)
  exact ⟨h.1, h.2, rfl⟩

/-- Witness for C3: a one-id crawl that appends one event. -/
theorem accumulator_results_nonempty_witness :
    demoEvent ∈ (crawlGo demoWorld "2023-01-01" [6178] []).2 ∧
    demoEvent.results ≠ [] :=
  ⟨by decide,
    (accumulator_results_nonempty demoWorld "2023-01-01" [6178]).1
      demoEvent (by decide)⟩

/-- C9: the persistence writer mutates only the array it freshly allocates
for the flattened results: every previously allocated results array —
contents, order and fields — is untouched, and the rendered output is the
sort of the flattened input read before the write. -/
theorem saveData_preserves_input_arrays (cmp : String → String → Int)
    (timestamp : String) (h : ArrayHeap) (eventRefs : List Nat) (r : Nat)
    (hr : r < h.arrays.length) :
    (saveDataHeap cmp timestamp h eventRefs).1.read r = h.read r ∧
    (saveDataHeap cmp timestamp h eventRefs).2 =
      renderFile timestamp
        (((eventRefs.map h.read).flatten).mergeSort
          (fun a b => cmp a.lifter b.lifter ≤ 0)) := by
  unfold saveDataHeap ArrayHeap.alloc ArrayHeap.write ArrayHeap.read
  dsimp only
  simp only [List.get?_eq_getElem?]
  constructor
  · rw [List.getElem?_set_ne (Nat.ne_of_gt hr), List.getElem?_append_left hr]
  · rw [List.getElem?_concat_length]
    rw [List.getElem?_set_self (by simp)]
    rfl

/-- Witness for C9 on a one-array heap. -/
theorem saveData_preserves_input_arrays_witness :
    0 < demoHeap.arrays.length ∧
    (saveDataHeap strCmpInt "t" demoHeap [0]).1.read 0 = demoHeap.read 0 :=
  ⟨by decide,
    (saveData_preserves_input_arrays strCmpInt "t" demoHeap [0] 0 (by decide)).1⟩
